import Mathlib

/-!
Verification development for the miden-tutorials repository.

The repository's own logic consists of (a) the browser test page
`web-client/app/page.tsx` (the `updateTutorialStatus` / `runTutorial`
helpers driving the tutorial buttons), (b) the browser test configuration
`web-client/playwright.config.ts`, and (c) the tutorials orchestration
shell script, stored after the tutorial text inside
`docs/src/rust-client/creating_notes_in_masm_tutorial.md` (the catalogs,
the argument scan, the web delegation, the rust retry loop and the
failure summary).  All three are embedded directly from the source.
-/
namespace Playwright

/-- A JavaScript numeric value restricted to what `playwright.config.ts`
can produce for `retries`: either NaN (a non-numeric string in the
environment variable) or a natural number. -/
inductive JsNum
  | nan
  | num (n : Nat)
deriving DecidableEq, Repr

/-- JavaScript `Number(s)` on a string, restricted to the non-negative
integer strings relevant to `TUTORIAL_RETRIES`: the empty string converts
to 0, a decimal digit string to its value, anything else to NaN. -/
def jsNumberOfString (s : String) : JsNum :=
  if s.data.isEmpty then .num 0
  else if s.data.all Char.isDigit then
    .num (s.data.foldl (fun n c => n * 10 + (c.toNat - 48)) 0)
  else .nan

/-- Line 8 of `web-client/playwright.config.ts`,
`Number(process.env.TUTORIAL_RETRIES ?? 1)`: when the environment variable is
unset the operand of `Number` is the number literal `1`. -/
def tutorialRetries (env : Option String) : JsNum :=
  match env with
  | none => .num 1
  | some s => jsNumberOfString s

/-- The constant `tutorialTimeoutMs = 10 * 60 * 1000`. -/
def tutorialTimeoutMs : Nat := 10 * 60 * 1000

/-- The fields of the object passed to `defineConfig` in
`web-client/playwright.config.ts` that carry orchestration meaning. -/
structure PlaywrightConfig where
  testDir : String
  timeoutMs : Nat
  retries : JsNum
  fullyParallel : Bool
  workers : Nat
  reporter : String
deriving DecidableEq, Repr

/-- The configuration exported by `web-client/playwright.config.ts`, as a
function of the `TUTORIAL_RETRIES` environment variable. -/
def playwrightConfig (env : Option String) : PlaywrightConfig :=
  { testDir := "./tests"
    timeoutMs := tutorialTimeoutMs
    retries := tutorialRetries env
    fullyParallel := false
    workers := 1
    reporter := "list" }

end Playwright

namespace WebApp

/-- The union type `TutorialState = "running" | "passed" | "failed"` from
`web-client/app/page.tsx`. -/
inductive TutorialState
  | running
  | passed
  | failed
deriving DecidableEq, Repr

/-- A JavaScript value as far as the error-formatting expression in
`updateTutorialStatus` can distinguish one: an `Error` instance (with its
`name` and `message`), or any other value, of which only truthiness and
`String(·)` are observed. -/
inductive JsValue
  | jsError (name message : String)
  | other (truthy : Bool) (stringRep : String)
deriving DecidableEq, Repr

/-- The record type `TutorialStatus`: a state plus an optional error string. -/
structure TutorialStatus where
  state : TutorialState
  error : Option String
deriving DecidableEq, Repr

/-- The record type `TutorialStatusMap` (a `Record<string, TutorialStatus>`) — a record
read through key lookup, absent keys reading as `undefined`. -/
def TutorialStatusMap : Type := String → Option TutorialStatus

/-- The page-level state visible to `runTutorial`: whether a `window`
object exists (`typeof window === "undefined"` check), the window's
optional `__tutorialStatus` record, the `isRunning` React flag of the
button being driven, and the console-error log. -/
structure PageState where
  hasWindow : Bool
  tutorialStatus : Option TutorialStatusMap
  isRunning : Bool
  consoleErrors : List (String × JsValue)

/-- The error-formatting expression in `updateTutorialStatus`:
`error instanceof Error ? error.name + ": " + error.message
 : error ? String(error) : undefined`. -/
def formatTutorialError : Option JsValue → Option String
  | some (.jsError n m) => some (n ++ ": " ++ m)
  | some (.other truthy s) => if truthy then some s else none
  | none => none

/-- The helper `updateTutorialStatus` from `web-client/app/page.tsx` lines 13–28: a
no-op without a window; otherwise reads `__tutorialStatus ?? {}`, writes
the entry for `name`, and stores the record back. -/
def updateTutorialStatus (name : String) (state : TutorialState)
    (error : Option JsValue) (s : PageState) : PageState :=
  if s.hasWindow then
    let current : TutorialStatusMap := s.tutorialStatus.getD (fun _ => none)
    let updated : TutorialStatusMap := fun k =>
      if k = name then some { state := state, error := formatTutorialError error }
      else current k
    { s with tutorialStatus := some updated }
  else s

/-- Reading one key of the window's `__tutorialStatus` record (an absent
record reads every key as `undefined`). -/
def lookupStatus (s : PageState) (k : String) : Option TutorialStatus :=
  (s.tutorialStatus.getD (fun _ => none)) k

/-- The observable steps `runTutorial` performs, in order: React flag
writes, status-map writes, the invocation of the tutorial action, and
`console.error` calls. -/
inductive PageEvent
  | setRunningFlag (value : Bool)
  | setStatus (name : String) (state : TutorialState) (error : Option JsValue)
  | invokeAction
  | logError (tag : String) (error : JsValue)
deriving DecidableEq, Repr

/-- Effect of one step on the page state; `setStatus` goes through
`updateTutorialStatus` exactly as the source calls it. -/
def applyPageEvent (s : PageState) : PageEvent → PageState
  | .setRunningFlag b => { s with isRunning := b }
  | .setStatus n st e => updateTutorialStatus n st e s
  | .invokeAction => s
  | .logError tag e => { s with consoleErrors := s.consoleErrors ++ [(tag, e)] }

/-- The step sequence of `runTutorial` (lines 30–46) for one tutorial,
indexed by the outcome of awaiting the action's promise:
`setIsRunning(true)`; status `running`; `await action()`; on fulfilment
status `passed`, on rejection `console.error` then status `failed` with
the error; finally `setIsRunning(false)`. -/
def runTutorialEvents (name : String) (outcome : Except JsValue Unit) :
    List PageEvent :=
  [.setRunningFlag true, .setStatus name .running none, .invokeAction] ++
    (match outcome with
     | .ok _ => [.setStatus name .passed none]
     | .error e =>
         [.logError ("[tutorial:" ++ name ++ "]") e,
          .setStatus name .failed (some e)]) ++
    [.setRunningFlag false]

/-- The helper `runTutorial` as a (total) state transformer: the fold of its step
sequence.  Totality reflects that the `try`/`catch`/`finally` swallows a
rejection of the action, so `runTutorial` itself never rejects. -/
def runTutorial (name : String) (outcome : Except JsValue Unit)
    (s : PageState) : PageState :=
  (runTutorialEvents name outcome).foldl applyPageEvent s

end WebApp

namespace Orchestrator

/-!
Embedding of the tutorials orchestration shell script.  The script is
stored in `docs/src/rust-client/creating_notes_in_masm_tutorial.md`, after
the tutorial text.  The per-attempt progress echoes (`Running rust
tutorial: ...`, `Run directory: ...`, `Output log: ...`) and the external
side effects themselves (`cargo clean`, `mkdir`, `ln -s`, `tee`) are not
tracked as output; the validation notes and errors, the listing, the usage
lines and the failure summary are.
-/

/-- The `WEB_EXAMPLES` array of the script. -/
def WEB_EXAMPLES : List String :=
  ["createMintConsume", "multiSendWithDelegatedProver",
   "incrementCounterContract", "unauthenticatedNoteTransfer",
   "foreignProcedureInvocation"]

/-- The `WEB_SKIPPED` array of the script. -/
def WEB_SKIPPED : List String :=
  ["incrementCounterContract", "foreignProcedureInvocation"]

/-- The `RUST_EXAMPLES` array of the script. -/
def RUST_EXAMPLES : List String :=
  ["counter_contract_deploy", "counter_contract_fpi",
   "counter_contract_increment", "create_mint_consume_send",
   "delegated_prover", "hash_preimage_note", "mapping_example",
   "network_notes_counter_contract", "note_creation_in_masm",
   "oracle_data_query", "unauthenticated_note_transfer"]

/-- The `RUST_SKIPPED` array of the script. -/
def RUST_SKIPPED : List String :=
  ["counter_contract_fpi", "counter_contract_increment",
   "oracle_data_query"]

/-- Decimal value of a digit string, as bash's numeric contexts read the
`TUTORIAL_RETRIES` value (a non-numeric value aborts bash's `-ge` test
and is outside this model). -/
def shellNat (s : String) : Nat :=
  s.data.foldl (fun n c => n * 10 + (c.toNat - 48)) 0

/-- The script's `rust_retries="${TUTORIAL_RETRIES:-3}"`: an unset or
empty variable yields 3, otherwise the variable's value is used. -/
def rustRetries (env : Option String) : Nat :=
  match env with
  | none => 3
  | some s => if s.data.isEmpty then 3 else shellNat s

/-- Whether the first character list is a prefix of the second (the
shell's `--*`-style prefix patterns). -/
def charsStartWith : List Char → List Char → Bool
  | [], _ => true
  | _ :: _, [] => false
  | a :: as, b :: bs => a = b && charsStartWith as bs

/-- Split a character list on commas into the comma-separated pieces (the
script's `IFS=',' read -r -a parts`). -/
def splitCommasAux : List Char → List Char → List String
  | [], acc => [String.mk acc.reverse]
  | c :: cs, acc =>
    if c = ',' then String.mk acc.reverse :: splitCommasAux cs []
    else splitCommasAux cs (c :: acc)

/-- The comma-separated pieces of a `--web=<names>` / `--rust=<names>`
value. -/
def splitCommas (cs : List Char) : List String :=
  splitCommasAux cs []

/-- The script's `add_web_names` / `add_rust_names`: split the value on
commas and keep only the non-empty parts. -/
def addNames (value : String) : List String :=
  (splitCommas value.data).filter (fun p => !(p.data.isEmpty))

/-- The mutable selection state of the script's argument loop:
`saw_selector`, `run_web`, `run_rust`, `web_names`, `rust_names`. -/
structure ScanState where
  sawSelector : Bool
  runWeb : Bool
  runRust : Bool
  webNames : List String
  rustNames : List String
deriving DecidableEq, Repr

/-- How the script's argument loop ends: the loop completes (the run
continues with the accumulated state), `--list` prints the listing and
exits 0, `--help`/`-h` prints usage and exits 0, or an unrecognized
argument prints usage and exits 1 — the three exits happen the moment the
argument is scanned. -/
inductive ScanResult
  | run (s : ScanState)
  | listing
  | helpExit
  | unknownArg (a : String)
deriving DecidableEq, Repr

/-- The selection state before any argument is scanned. -/
def initScan : ScanState := ⟨false, false, false, [], []⟩

/-- The script's `while [[ $# -gt 0 ]] ... case "$1"` argument loop.  A
bare `--web`/`--rust` also consumes a following argument as its name list
when that argument does not start with `--`. -/
def scanArgs : List String → ScanState → ScanResult
  | [], s => .run s
  | a :: rest, s =>
    if a = "--web" then
      match rest with
      | b :: rest2 =>
        if !(charsStartWith "--".data b.data) then
          scanArgs rest2
            { s with
                sawSelector := true
                runWeb := true
                webNames := s.webNames ++ addNames b }
        else
          scanArgs (b :: rest2) { s with sawSelector := true, runWeb := true }
      | [] => scanArgs [] { s with sawSelector := true, runWeb := true }
    else if charsStartWith "--web=".data a.data then
      scanArgs rest
        { s with
            sawSelector := true
            runWeb := true
            webNames := s.webNames ++ addNames (String.mk (a.data.drop 6)) }
    else if a = "--rust" then
      match rest with
      | b :: rest2 =>
        if !(charsStartWith "--".data b.data) then
          scanArgs rest2
            { s with
                sawSelector := true
                runRust := true
                rustNames := s.rustNames ++ addNames b }
        else
          scanArgs (b :: rest2) { s with sawSelector := true, runRust := true }
      | [] => scanArgs [] { s with sawSelector := true, runRust := true }
    else if charsStartWith "--rust=".data a.data then
      scanArgs rest
        { s with
            sawSelector := true
            runRust := true
            rustNames := s.rustNames ++ addNames (String.mk (a.data.drop 7)) }
    else if a = "--list" then .listing
    else if a = "--help" ∨ a = "-h" then .helpExit
    else .unknownArg a

/-- After the argument loop: `if [[ "$saw_selector" -eq 0 ]]` both classes
run. -/
def effectiveScan (s : ScanState) : ScanState :=
  if !s.sawSelector then { s with runWeb := true, runRust := true } else s

/-- The default-enabled subset of a catalog: every name not in the skip
list, in catalog order. -/
def defaultEnabled (examples skipped : List String) : List String :=
  examples.filter (fun n => !(skipped.contains n))

/-- If no names were accumulated for a class, the class falls back to its
default-enabled subset. -/
def resolveNames (names examples skipped : List String) : List String :=
  if names.isEmpty then defaultEnabled examples skipped else names

/-- The script's notice for an explicitly requested skip-by-default
name. -/
def skipNote (n : String) : String :=
  "Note: " ++ n ++
    " is skipped by default but will run because it was explicitly requested."

/-- The script's per-class validation loop: walk the resolved names in
order, emit the skip notice for known skip-by-default names, and stop at
the first name not in the catalog (returned as the error).  Returns the
lines printed before any error, and the offending name if one was hit. -/
def validateLoop (examples skipped : List String) :
    List String → List String × Option String
  | [] => ([], none)
  | n :: rest =>
    if examples.contains n then
      let note : List String := if skipped.contains n then [skipNote n] else []
      let r := validateLoop examples skipped rest
      (note ++ r.1, r.2)
    else ([], some n)

/-- Why a phase aborted the whole script with exit 1. -/
inductive PhaseAbort
  | unknownName (name : String)
  | masmNotSymlink
deriving DecidableEq, Repr

/-- The observable result of the script's web block: the printed lines,
the `playwright test --grep` invocations made (their patterns), the
failure tags collected, and the abort if validation failed. -/
structure WebPhase where
  output : List String
  invocations : List String
  failures : List String
  abort : Option PhaseAbort
deriving Repr

/-- The script's `if [[ "$run_web" -eq 1 ]]` block: fall back to the
default subset when no names accumulated, validate (first unknown name
prints the name plus the catalog and exits 1), then invoke the browser
test command exactly once with the `IFS='|'`-joined pattern; a non-zero
exit appends the single failure tag `web`. -/
def runWebPhase (runWeb : Bool) (names : List String) (exitZero : Bool) :
    WebPhase :=
  if !runWeb then ⟨[], [], [], none⟩
  else
    let sel := resolveNames names WEB_EXAMPLES WEB_SKIPPED
    let v := validateLoop WEB_EXAMPLES WEB_SKIPPED sel
    match v.2 with
    | some bad =>
      ⟨v.1 ++ ["Unknown web tutorial: " ++ bad,
        "Available web tutorials: " ++ String.intercalate " " WEB_EXAMPLES],
        [], [], some (.unknownName bad)⟩
    | none =>
      ⟨v.1 ++ ["Running web tutorials: " ++ String.intercalate " " sel],
        [String.intercalate "|" sel],
        if exitZero then [] else ["web"], none⟩

/-- The state of `$RUNS_DIR/masm` before the run: absent (the script
creates the symlink), a symlink, or an ordinary entry (fatal). -/
inductive MasmState
  | absent
  | symlink
  | notSymlink
deriving DecidableEq, Repr

/-- Decimal digit characters of `n`, most significant first, with
explicit fuel; `natDigits` supplies fuel `n + 1`, which always
suffices (the digit count of `n` is at most `n + 1`). -/
def natDigitsAux : Nat → Nat → List Char
  | 0, _ => []
  | fuel + 1, n =>
    if n < 10 then [Char.ofNat (48 + n)]
    else natDigitsAux fuel (n / 10) ++ [Char.ofNat (48 + n % 10)]

/-- Decimal digit characters of `n`, most significant first. -/
def natDigits (n : Nat) : List Char := natDigitsAux (n + 1) n

/-- Decimal rendering of `n`, as the shell writes `$$` and
`${attempt}`. -/
def natStr (n : Nat) : String := String.mk (natDigits n)

/-- The script's
`run_stamp="$(date +%Y%m%d-%H%M%S)-$$-attempt${attempt}"`. -/
def runStamp (dateStamp : String) (pid attempt : Nat) : String :=
  dateStamp ++ "-" ++ natStr pid ++ "-attempt" ++ natStr attempt

/-- The basename of `run_dir="$RUNS_DIR/${name}-${run_stamp}"` (the
constant `$RUNS_DIR/` prefix is common to every attempt). -/
def runDirName (name dateStamp : String) (pid attempt : Nat) : String :=
  name ++ "-" ++ runStamp dateStamp pid attempt

/-- One execution of one rust example: its run directory basename, the
components the basename was synthesized from, and the exit status. -/
structure RunAttempt where
  dir : String
  exampleName : String
  dateStamp : String
  pid : Nat
  attempt : Nat
  exitZero : Bool
deriving DecidableEq, Repr

/-- What one example's `while true` retry loop produced: the attempts in
order, the sleeps (in seconds) taken between consecutive attempts, the
failure tag if the budget was exhausted, and the next `date` read
index. -/
structure RustLoopTrace where
  attempts : List RunAttempt
  sleeps : List Nat
  failure : Option String
  tick : Nat
deriving Repr

/-- The attempt record for attempt number `a` of `name`, stamped with the
`k`-th `date` read. -/
def mkAttempt (name : String) (outcome : Nat → Bool) (stamps : Nat → String)
    (pid a k : Nat) : RunAttempt :=
  { dir := runDirName name (stamps k) pid a
    exampleName := name
    dateStamp := stamps k
    pid := pid
    attempt := a
    exitZero := outcome a }

/-- The script's `while true` retry loop, run-then-check: every iteration
creates a run directory and runs the example; a zero exit breaks; a
non-zero exit breaks with the failure tag once `attempt -ge rust_retries`,
and otherwise sleeps 10 seconds and retries with `attempt + 1`.  The
budget test is carried as the fuel `rust_retries - attempt`, maintained by
the wrapper `rustLoop`; at fuel 0 the failing branch is the `-ge` break. -/
def rustLoopFrom (name : String) (outcome : Nat → Bool)
    (stamps : Nat → String) (pid : Nat) : Nat → Nat → Nat → RustLoopTrace
  | 0, a, k =>
    let att := mkAttempt name outcome stamps pid a k
    if att.exitZero then ⟨[att], [], none, k + 1⟩
    else ⟨[att], [], some ("rust:" ++ name), k + 1⟩
  | fuel + 1, a, k =>
    let att := mkAttempt name outcome stamps pid a k
    if att.exitZero then ⟨[att], [], none, k + 1⟩
    else
      let rest := rustLoopFrom name outcome stamps pid fuel (a + 1) (k + 1)
      ⟨att :: rest.attempts, 10 :: rest.sleeps, rest.failure, rest.tick⟩

/-- One example's retry loop with `attempt=1` and the full budget. -/
def rustLoop (retries : Nat) (name : String) (outcome : Nat → Bool)
    (stamps : Nat → String) (pid k : Nat) : RustLoopTrace :=
  rustLoopFrom name outcome stamps pid (retries - 1) 1 k

/-- The script's `for name in "${rust_names[@]}"` loop: each example's
retry loop runs to completion before the next name starts. -/
def rustNamesLoop (retries : Nat) (outcome : String → Nat → Bool)
    (stamps : Nat → String) (pid : Nat) :
    List String → Nat → List RunAttempt × List String × Nat
  | [], k => ([], [], k)
  | n :: ns, k =>
    let tr := rustLoop retries n (outcome n) stamps pid k
    let rest := rustNamesLoop retries outcome stamps pid ns tr.tick
    (tr.attempts ++ rest.1, tr.failure.toList ++ rest.2.1, rest.2.2)

/-- The observable result of the script's rust block: the printed
validation lines, the attempts, the failure tags, and the abort if
validation or the `masm` symlink check failed. -/
structure RustPhase where
  output : List String
  attempts : List RunAttempt
  failures : List String
  abort : Option PhaseAbort
deriving Repr

/-- The script's `if [[ "$run_rust" -eq 1 ]]` block: fall back to the
default subset, validate (first unknown name prints the name plus the
catalog and exits 1), check the `masm` symlink (an ordinary entry there is
fatal), then run each name's retry loop. -/
def runRustPhase (runRust : Bool) (names : List String) (retries : Nat)
    (outcome : String → Nat → Bool) (stamps : Nat → String) (pid : Nat)
    (masm : MasmState) (k : Nat) : RustPhase :=
  if !runRust then ⟨[], [], [], none⟩
  else
    let sel := resolveNames names RUST_EXAMPLES RUST_SKIPPED
    let v := validateLoop RUST_EXAMPLES RUST_SKIPPED sel
    match v.2 with
    | some bad =>
      ⟨v.1 ++ ["Unknown rust tutorial: " ++ bad,
        "Available rust tutorials: " ++ String.intercalate " " RUST_EXAMPLES],
        [], [], some (.unknownName bad)⟩
    | none =>
      match masm with
      | .notSymlink =>
        ⟨v.1 ++ ["Expected .tutorial-runs/masm to be a symlink."], [], [],
          some .masmNotSymlink⟩
      | _ =>
        let r := rustNamesLoop retries outcome stamps pid sel k
        ⟨v.1, r.1, r.2.1, none⟩

/-- The `--list` output: per class, the default-enabled names then the
skip-by-default names, indented two spaces, with the script's blank and
heading lines. -/
def listingOutput : List String :=
  ["Web tutorials (default):"] ++
    (defaultEnabled WEB_EXAMPLES WEB_SKIPPED).map (fun n => "  " ++ n) ++
  (if WEB_SKIPPED.isEmpty then [] else
    ["", "Web tutorials (skipped by default):"] ++
      WEB_SKIPPED.map (fun n => "  " ++ n)) ++
  ["", "Rust tutorials (default):"] ++
    (defaultEnabled RUST_EXAMPLES RUST_SKIPPED).map (fun n => "  " ++ n) ++
  (if RUST_SKIPPED.isEmpty then [] else
    ["", "Rust tutorials (skipped by default):"] ++
      RUST_SKIPPED.map (fun n => "  " ++ n))

/-- Everything one invocation of the script depends on besides its
argument list: the `TUTORIAL_RETRIES` value, the exit behaviour of
`cargo run` per (name, attempt) and of the single playwright run, the
successive `date +%Y%m%d-%H%M%S` reads, the process id `$$`, and the
state of the `masm` entry. -/
structure Invocation where
  tutorialRetries : Option String
  rustOutcome : String → Nat → Bool
  webExitZero : Bool
  stamps : Nat → String
  pid : Nat
  masm : MasmState

/-- The externally observable result of one script invocation. -/
structure ScriptResult where
  exitCode : Nat
  output : List String
  attempts : List RunAttempt
  webInvocations : List String
  failures : List String

/-- Decimal value of a digit character list — the left inverse of
`natDigits`, used to reason about the renderings of `$$` and
`${attempt}`. -/
def decodeDigits (cs : List Char) : Nat :=
  cs.foldl (fun m c => m * 10 + (c.toNat - 48)) 0

/-- The script's final summary block: a blank line, `Failures:`, and one
indented line per collected tag. -/
def failureSummary (failures : List String) : List String :=
  ["", "Failures:"] ++ failures.map (fun f => "  " ++ f)

/-- The whole script: scan the arguments (`--list`, `--help` and unknown
arguments exit during the scan), default both classes when no selector
was seen, run the web block, then the rust block (so a rust validation
error is only hit after the web block has already executed), and finally
exit 1 with the summary if any failures were collected, else 0. -/
def runScript (inv : Invocation) (args : List String) : ScriptResult :=
  match scanArgs args initScan with
  | .listing => ⟨0, listingOutput, [], [], []⟩
  | .helpExit => ⟨0, ["usage"], [], [], []⟩
  | .unknownArg a => ⟨1, ["Unknown argument: " ++ a, "usage"], [], [], []⟩
  | .run s0 =>
    let s := effectiveScan s0
    let web := runWebPhase s.runWeb s.webNames inv.webExitZero
    if web.abort.isSome then ⟨1, web.output, [], [], []⟩
    else
      let rust := runRustPhase s.runRust s.rustNames
        (rustRetries inv.tutorialRetries) inv.rustOutcome inv.stamps inv.pid
        inv.masm 0
      if rust.abort.isSome then
        ⟨1, web.output ++ rust.output, [], web.invocations, web.failures⟩
      else
        let failures := web.failures ++ rust.failures
        if failures.isEmpty then
          ⟨0, web.output ++ rust.output, rust.attempts, web.invocations,
            failures⟩
        else
          ⟨1, web.output ++ rust.output ++ failureSummary failures,
            rust.attempts, web.invocations, failures⟩

end Orchestrator

/-! ## Theorems -/

section Theorems

open Orchestrator WebApp

/-- C1: the retry budget for example runs is configurable via the
`TUTORIAL_RETRIES` environment override and defaults to 3 attempts when
the override is unset (or empty): `rust_retries="${TUTORIAL_RETRIES:-3}"`
in the orchestration script. -/
theorem tutorial_retries_defaults_to_three :
    rustRetries none = 3 ∧ rustRetries (some "") = 3 ∧
    rustRetries (some "1") = 1 ∧ rustRetries (some "7") = 7 := by
  refine ⟨rfl, by decide, by decide, by decide⟩

/-- C7 counterexample: the argument loop is positional, so `--badflag
--list` hits the unknown-argument case first and exits 1 with usage,
printing no listing, although the listing flag is on the command line. -/
theorem unknown_flag_preempts_list :
    "--list" ∈ ["--badflag", "--list"] ∧
    (runScript ⟨none, fun _ _ => true, true, fun _ => "", 0, .symlink⟩
      ["--badflag", "--list"]).exitCode = 1 ∧
    (runScript ⟨none, fun _ _ => true, true, fun _ => "", 0, .symlink⟩
      ["--badflag", "--list"]).output =
      ["Unknown argument: --badflag", "usage"] := by
  refine ⟨by decide, by decide, by decide⟩

/-- C7 (amended): every invocation whose argument scan reaches the
listing flag (no unknown or help argument precedes it) prints, per class,
the default-enabled names followed by the skip-by-default names, creates
no RunAttempt directory, runs no example, and exits 0. -/
theorem list_scan_exits_zero (inv : Invocation) (args : List String)
    (h : scanArgs args initScan = ScanResult.listing) :
    (runScript inv args).exitCode = 0 ∧
    (runScript inv args).attempts = [] ∧
    (runScript inv args).webInvocations = [] ∧
    (runScript inv args).output = listingOutput := by
  unfold runScript
  rw [h]
  exact ⟨rfl, rfl, rfl, rfl⟩

/-- C7 witness: the pure `--list` invocation. -/
theorem list_scan_exits_zero_witness :
    (runScript ⟨none, fun _ _ => true, true, fun _ => "", 0, .symlink⟩
      ["--list"]).exitCode = 0 ∧
    (runScript ⟨none, fun _ _ => true, true, fun _ => "", 0, .symlink⟩
      ["--list"]).attempts = [] ∧
    (runScript ⟨none, fun _ _ => true, true, fun _ => "", 0, .symlink⟩
      ["--list"]).webInvocations = [] ∧
    (runScript ⟨none, fun _ _ => true, true, fun _ => "", 0, .symlink⟩
      ["--list"]).output = listingOutput :=
  list_scan_exits_zero ⟨none, fun _ _ => true, true, fun _ => "", 0, .symlink⟩
    ["--list"] (by decide)

/-- C4 counterexample: `--web --rust=bogus` requests a name absent from
the rust catalog, yet the script's single browser-test invocation has
already executed (with the default web pattern) before the rust
validation exits 1 — the invocation does not execute zero example
processes. -/
theorem unknown_rust_name_after_web_runs :
    "bogus" ∉ RUST_EXAMPLES ∧
    (runScript ⟨none, fun _ _ => true, true, fun _ => "", 0, .symlink⟩
      ["--web", "--rust=bogus"]).exitCode = 1 ∧
    (runScript ⟨none, fun _ _ => true, true, fun _ => "", 0, .symlink⟩
      ["--web", "--rust=bogus"]).webInvocations =
      ["createMintConsume|multiSendWithDelegatedProver|unauthenticatedNoteTransfer"] := by
  refine ⟨by decide, by decide, by decide⟩

/-- The validation loop's error is a requested name absent from the
catalog. -/
theorem validateLoop_some (examples skipped : List String) :
    ∀ l b, (validateLoop examples skipped l).2 = some b →
      b ∈ l ∧ b ∉ examples := by
  intro l
  induction l with
  | nil => intro b h; simp [validateLoop] at h
  | cons n rest ih =>
    intro b h
    by_cases hc : examples.contains n = true
    · simp only [validateLoop, hc, if_true] at h
      obtain ⟨h1, h2⟩ := ih b h
      exact ⟨List.mem_cons_of_mem _ h1, h2⟩
    · simp only [validateLoop, hc, if_false] at h
      obtain rfl : n = b := by simpa using h
      refine ⟨List.mem_cons_self _ _, ?_⟩
      simpa using hc

/-- A web-block abort is an unknown requested name: the name is absent
from the catalog, the browser-test command was never invoked, no failure
tag was collected, and the output carries the offending name plus the
catalog. -/
theorem runWebPhase_abort_spec (runWeb : Bool) (names : List String)
    (ez : Bool) (bad : String)
    (h : (runWebPhase runWeb names ez).abort =
      some (PhaseAbort.unknownName bad)) :
    bad ∉ WEB_EXAMPLES ∧
    (runWebPhase runWeb names ez).invocations = [] ∧
    (runWebPhase runWeb names ez).failures = [] ∧
    "Unknown web tutorial: " ++ bad ∈ (runWebPhase runWeb names ez).output ∧
    "Available web tutorials: " ++ String.intercalate " " WEB_EXAMPLES ∈
      (runWebPhase runWeb names ez).output := by
  by_cases hw : runWeb = true
  · cases hv : validateLoop WEB_EXAMPLES WEB_SKIPPED
        (resolveNames names WEB_EXAMPLES WEB_SKIPPED) with
    | mk outs err =>
      cases err with
      | none => simp [runWebPhase, hw, hv] at h
      | some b =>
        have hphase : runWebPhase runWeb names ez =
            ⟨outs ++ ["Unknown web tutorial: " ++ b,
              "Available web tutorials: " ++
                String.intercalate " " WEB_EXAMPLES],
              [], [], some (PhaseAbort.unknownName b)⟩ := by
          simp [runWebPhase, hw, hv]
        rw [hphase] at h
        obtain rfl : b = bad := by simpa using h
        have hb := validateLoop_some WEB_EXAMPLES WEB_SKIPPED _ b (by rw [hv])
        rw [hphase]
        refine ⟨hb.2, rfl, rfl, by simp, by simp⟩
  · simp [runWebPhase, hw] at h

/-- A rust-block abort on an unknown requested name: the name is absent
from the catalog, no attempt was made, and the output carries the
offending name plus the catalog. -/
theorem runRustPhase_abort_spec (runRust : Bool) (names : List String)
    (retries : Nat) (outcome : String → Nat → Bool) (stamps : Nat → String)
    (pid : Nat) (masm : MasmState) (k : Nat) (bad : String)
    (h : (runRustPhase runRust names retries outcome stamps pid masm k).abort =
      some (PhaseAbort.unknownName bad)) :
    bad ∉ RUST_EXAMPLES ∧
    (runRustPhase runRust names retries outcome stamps pid masm k).attempts = [] ∧
    "Unknown rust tutorial: " ++ bad ∈
      (runRustPhase runRust names retries outcome stamps pid masm k).output ∧
    "Available rust tutorials: " ++ String.intercalate " " RUST_EXAMPLES ∈
      (runRustPhase runRust names retries outcome stamps pid masm k).output := by
  by_cases hr : runRust = true
  · cases hv : validateLoop RUST_EXAMPLES RUST_SKIPPED
        (resolveNames names RUST_EXAMPLES RUST_SKIPPED) with
    | mk outs err =>
      cases err with
      | none =>
        cases masm <;> simp [runRustPhase, hr, hv] at h
      | some b =>
        have hphase : runRustPhase runRust names retries outcome stamps pid
            masm k =
            ⟨outs ++ ["Unknown rust tutorial: " ++ b,
              "Available rust tutorials: " ++
                String.intercalate " " RUST_EXAMPLES],
              [], [], some (PhaseAbort.unknownName b)⟩ := by
          simp [runRustPhase, hr, hv]
        rw [hphase] at h
        obtain rfl : b = bad := by simpa using h
        have hb := validateLoop_some RUST_EXAMPLES RUST_SKIPPED _ b (by rw [hv])
        rw [hphase]
        refine ⟨hb.2, rfl, by simp, by simp⟩
  · simp [runRustPhase, hr] at h

/-- C4 (amended): a requested name absent from its class's catalog makes
the process print the offending name plus the valid catalog and exit
non-zero with no attempt directory created; an unknown web name is caught
before anything runs, but an unknown rust name is only detected after the
web block, whose single browser-test invocation has then already
executed. -/
theorem unknown_name_aborts (inv : Invocation) (args : List String)
    (s : ScanState) (bad : String)
    (hscan : scanArgs args initScan = ScanResult.run s) :
    ((runWebPhase (effectiveScan s).runWeb (effectiveScan s).webNames
        inv.webExitZero).abort = some (PhaseAbort.unknownName bad) →
      (runScript inv args).exitCode = 1 ∧
      (runScript inv args).attempts = [] ∧
      (runScript inv args).webInvocations = [] ∧
      bad ∉ WEB_EXAMPLES ∧
      "Unknown web tutorial: " ++ bad ∈ (runScript inv args).output ∧
      "Available web tutorials: " ++ String.intercalate " " WEB_EXAMPLES ∈
        (runScript inv args).output) ∧
    ((runWebPhase (effectiveScan s).runWeb (effectiveScan s).webNames
        inv.webExitZero).abort = none →
      (runRustPhase (effectiveScan s).runRust (effectiveScan s).rustNames
        (rustRetries inv.tutorialRetries) inv.rustOutcome inv.stamps inv.pid
        inv.masm 0).abort = some (PhaseAbort.unknownName bad) →
      (runScript inv args).exitCode = 1 ∧
      (runScript inv args).attempts = [] ∧
      bad ∉ RUST_EXAMPLES ∧
      "Unknown rust tutorial: " ++ bad ∈ (runScript inv args).output ∧
      "Available rust tutorials: " ++ String.intercalate " " RUST_EXAMPLES ∈
        (runScript inv args).output) := by
  constructor
  · intro hweb
    obtain ⟨h1, h2, h3, h4, h5⟩ := runWebPhase_abort_spec _ _ _ _ hweb
    unfold runScript
    rw [hscan]
    simp only [hweb, Option.isSome_some, if_true]
    refine ⟨?_, ?_, ?_, h1, ?_, ?_⟩
    · trivial
    · trivial
    · trivial
    · exact h4
    · exact h5
  · intro hweb hrust
    obtain ⟨h1, h2, h3, h4⟩ := runRustPhase_abort_spec _ _ _ _ _ _ _ _ _ hrust
    unfold runScript
    rw [hscan]
    simp only [hweb, hrust, Option.isSome_some, Option.isSome_none,
      Bool.false_eq_true, if_false, if_true]
    refine ⟨?_, ?_, h1, ?_, ?_⟩
    · trivial
    · trivial
    · simp [h3]
    · simp [h4]

/-- C4 witness: `--rust=bogus` alone — the rust-side case of the amended
claim at a concrete invocation. -/
theorem unknown_name_aborts_witness :
    (runScript ⟨none, fun _ _ => true, true, fun _ => "", 0, .symlink⟩
      ["--rust=bogus"]).exitCode = 1 ∧
    (runScript ⟨none, fun _ _ => true, true, fun _ => "", 0, .symlink⟩
      ["--rust=bogus"]).attempts = [] ∧
    "bogus" ∉ RUST_EXAMPLES ∧
    "Unknown rust tutorial: " ++ "bogus" ∈
      (runScript ⟨none, fun _ _ => true, true, fun _ => "", 0, .symlink⟩
        ["--rust=bogus"]).output ∧
    "Available rust tutorials: " ++ String.intercalate " " RUST_EXAMPLES ∈
      (runScript ⟨none, fun _ _ => true, true, fun _ => "", 0, .symlink⟩
        ["--rust=bogus"]).output :=
  (unknown_name_aborts ⟨none, fun _ _ => true, true, fun _ => "", 0, .symlink⟩
    ["--rust=bogus"] ⟨true, false, true, [], ["bogus"]⟩ "bogus"
    (by decide)).2 (by decide) (by decide)

/-- String append acts as list append on the character data. -/
theorem data_append (x y : String) : (x ++ y).data = x.data ++ y.data := rfl

/-- The data of a one-dash string. -/
theorem dash_data : "-".data = ['-'] := rfl

/-- The data of the `-attempt` segment. -/
theorem attempt_seg_data : "-attempt".data = '-' :: "attempt".data := rfl

/-- The data of a rendered number is its digit list. -/
theorem data_natStr (n : Nat) : (natStr n).data = natDigits n := rfl

/-- Every character `natDigitsAux` emits is a decimal digit. -/
theorem natDigitsAux_digits :
    ∀ fuel n, ∀ c ∈ natDigitsAux fuel n, c.isDigit = true := by
  intro fuel
  induction fuel with
  | zero => intro n c hc; simp [natDigitsAux] at hc
  | succ fuel ih =>
    intro n c hc
    by_cases h : n < 10
    · simp [natDigitsAux, h] at hc
      subst hc
      interval_cases n <;> decide
    · simp [natDigitsAux, h] at hc
      rcases hc with hc | hc
      · exact ih _ c hc
      · subst hc
        have h10 : n % 10 < 10 := Nat.mod_lt _ (by norm_num)
        set m := n % 10 with hm
        interval_cases m <;> decide

/-- Every character of a rendered number is a decimal digit. -/
theorem natDigits_all_digits (n : Nat) : ∀ c ∈ natDigits n, c.isDigit = true :=
  natDigitsAux_digits (n + 1) n

/-- Decoding inverts `natDigitsAux` below its fuel bound. -/
theorem decode_natDigitsAux :
    ∀ fuel n, n < 10 ^ fuel → decodeDigits (natDigitsAux fuel n) = n := by
  intro fuel
  induction fuel with
  | zero =>
    intro n hn
    interval_cases n
    simp [natDigitsAux, decodeDigits]
  | succ fuel ih =>
    intro n hn
    by_cases h : n < 10
    · simp only [natDigitsAux, h, if_true]
      unfold decodeDigits
      interval_cases n <;> decide
    · simp only [natDigitsAux, h, if_false]
      have hpow : (10 : Nat) ^ (fuel + 1) = 10 ^ fuel * 10 := pow_succ 10 fuel
      have hdiv : n / 10 < 10 ^ fuel := by omega
      have hih := ih (n / 10) hdiv
      unfold decodeDigits at hih ⊢
      rw [List.foldl_append, hih]
      simp only [List.foldl_cons, List.foldl_nil]
      have h10 : n % 10 < 10 := Nat.mod_lt _ (by norm_num)
      have hchar : (Char.ofNat (48 + n % 10)).toNat - 48 = n % 10 := by
        set m := n % 10 with hm
        interval_cases m <;> decide
      rw [hchar]
      omega

/-- Decoding inverts the decimal rendering. -/
theorem decode_natDigits (n : Nat) : decodeDigits (natDigits n) = n :=
  decode_natDigitsAux (n + 1) n
    (lt_of_lt_of_le (Nat.lt_pow_self (by norm_num) n)
      (Nat.pow_le_pow_right (by norm_num) (Nat.le_succ n)))

/-- The decimal rendering is injective. -/
theorem natDigits_inj {m n : Nat} (h : natDigits m = natDigits n) : m = n := by
  have hm := decode_natDigits m
  rw [h, decode_natDigits] at hm
  omega

/-- A `takeWhile` cuts a satisfying run exactly at the first failing
character. -/
theorem takeWhile_all_append (p : Char → Bool) :
    ∀ (xs : List Char) (y : Char) (ys : List Char),
      (∀ x ∈ xs, p x = true) → p y = false →
      (xs ++ y :: ys).takeWhile p = xs := by
  intro xs
  induction xs with
  | nil => intro y ys _ hy; simp [List.takeWhile_cons, hy]
  | cons x xs ih =>
    intro y ys hxs hy
    have hx : p x = true := hxs x (List.mem_cons_self _ _)
    simp only [List.cons_append, List.takeWhile_cons, hx, if_true]
    rw [ih y ys (fun z hz => hxs z (List.mem_cons_of_mem _ hz)) hy]

/-- Two equal lists that are each a digit run followed by a dash split at
their dashes. -/
theorem digit_run_split (ds1 ds2 t1 t2 : List Char)
    (h1 : ∀ c ∈ ds1, c.isDigit = true) (h2 : ∀ c ∈ ds2, c.isDigit = true)
    (h : ds1 ++ '-' :: t1 = ds2 ++ '-' :: t2) : ds1 = ds2 ∧ t1 = t2 := by
  have e1 : (ds1 ++ '-' :: t1).takeWhile (fun c => c.isDigit) = ds1 :=
    takeWhile_all_append _ ds1 '-' t1 h1 (by decide)
  have e2 : (ds2 ++ '-' :: t2).takeWhile (fun c => c.isDigit) = ds2 :=
    takeWhile_all_append _ ds2 '-' t2 h2 (by decide)
  have hds : ds1 = ds2 := by rw [← e1, ← e2, h]
  subst hds
  exact ⟨rfl, by simpa using List.append_cancel_left h⟩

/-- Two equal lists that are each a dash-free run followed by a dash split
at their dashes. -/
theorem dashfree_run_split (n1 n2 t1 t2 : List Char)
    (h1 : ('-' : Char) ∉ n1) (h2 : ('-' : Char) ∉ n2)
    (h : n1 ++ '-' :: t1 = n2 ++ '-' :: t2) : n1 = n2 ∧ t1 = t2 := by
  have e1 : (n1 ++ '-' :: t1).takeWhile (fun c => c != '-') = n1 :=
    takeWhile_all_append _ n1 '-' t1
      (fun x hx => by
        simp only [bne_iff_ne, ne_eq, decide_eq_true_eq]
        intro hxe; exact h1 (hxe ▸ hx))
      (by decide)
  have e2 : (n2 ++ '-' :: t2).takeWhile (fun c => c != '-') = n2 :=
    takeWhile_all_append _ n2 '-' t2
      (fun x hx => by
        simp only [bne_iff_ne, ne_eq, decide_eq_true_eq]
        intro hxe; exact h2 (hxe ▸ hx))
      (by decide)
  have hds : n1 = n2 := by rw [← e1, ← e2, h]
  subst hds
  exact ⟨rfl, by simpa using List.append_cancel_left h⟩

/-- The `run_stamp` synthesis is injective for date stamps of the fixed
`%Y%m%d-%H%M%S` width (15 characters). -/
theorem runStamp_inj (s1 s2 : String) (p1 p2 a1 a2 : Nat)
    (h1 : s1.data.length = 15) (h2 : s2.data.length = 15)
    (h : runStamp s1 p1 a1 = runStamp s2 p2 a2) :
    s1 = s2 ∧ p1 = p2 ∧ a1 = a2 := by
  have hd := congrArg String.data h
  simp only [runStamp, data_append, dash_data, attempt_seg_data, data_natStr,
    List.append_assoc, List.singleton_append, List.cons_append] at hd
  obtain ⟨hs, hrest⟩ := List.append_inj hd (h1.trans h2.symm)
  have hrest2 : natDigits p1 ++ '-' :: ("attempt".data ++ natDigits a1) =
      natDigits p2 ++ '-' :: ("attempt".data ++ natDigits a2) := by
    simpa using hrest
  obtain ⟨hp, ht⟩ := digit_run_split _ _ _ _
    (natDigits_all_digits p1) (natDigits_all_digits p2) hrest2
  refine ⟨String.ext hs, natDigits_inj hp, natDigits_inj ?_⟩
  exact List.append_cancel_left ht

/-- Within one retry loop (same example name), directory names with
distinct pid or attempt components are distinct. -/
theorem runDirName_inj_same_name (n s1 s2 : String) (p1 p2 a1 a2 : Nat)
    (h1 : s1.data.length = 15) (h2 : s2.data.length = 15)
    (h : runDirName n s1 p1 a1 = runDirName n s2 p2 a2) :
    s1 = s2 ∧ p1 = p2 ∧ a1 = a2 := by
  apply runStamp_inj s1 s2 p1 p2 a1 a2 h1 h2
  have hd := congrArg String.data h
  simp only [runDirName, data_append, List.append_assoc] at hd
  have hcancel := List.append_cancel_left hd
  have hcancel2 := List.append_cancel_left hcancel
  exact String.ext hcancel2

/-- The directory-name synthesis is injective on dash-free example names
and fixed-width date stamps. -/
theorem runDirName_inj (n1 n2 s1 s2 : String) (p1 p2 a1 a2 : Nat)
    (hd1 : ('-' : Char) ∉ n1.data) (hd2 : ('-' : Char) ∉ n2.data)
    (h1 : s1.data.length = 15) (h2 : s2.data.length = 15)
    (h : runDirName n1 s1 p1 a1 = runDirName n2 s2 p2 a2) :
    n1 = n2 ∧ s1 = s2 ∧ p1 = p2 ∧ a1 = a2 := by
  have hdata := congrArg String.data h
  simp only [runDirName, data_append, List.append_assoc, dash_data,
    List.singleton_append] at hdata
  obtain ⟨hn, ht⟩ := dashfree_run_split _ _ _ _ hd1 hd2 hdata
  have hs := runStamp_inj s1 s2 p1 p2 a1 a2 h1 h2 (String.ext ht)
  exact ⟨String.ext hn, hs.1, hs.2.1, hs.2.2⟩

/-- A list maps to a duplicate-free list when its image is pairwise
distinct. -/
theorem nodup_map_of_pairwise_ne {α β : Type} (f : α → β) :
    ∀ l : List α, l.Pairwise (fun x y => f x ≠ f y) → (l.map f).Nodup := by
  intro l
  induction l with
  | nil => intro; simp
  | cons x xs ih =>
    intro h
    rw [List.pairwise_cons] at h
    rw [List.map_cons, List.nodup_cons]
    refine ⟨?_, ih h.2⟩
    intro hmem
    obtain ⟨y, hy, hfy⟩ := List.mem_map.mp hmem
    exact h.1 y hy hfy.symm

/-- The recorded exit status of an attempt record. -/
theorem mkAttempt_exitZero (name : String) (outcome : Nat → Bool)
    (stamps : Nat → String) (pid a k : Nat) :
    (mkAttempt name outcome stamps pid a k).exitZero = outcome a := rfl

/-- The recorded attempt number of an attempt record. -/
theorem mkAttempt_attempt (name : String) (outcome : Nat → Bool)
    (stamps : Nat → String) (pid a k : Nat) :
    (mkAttempt name outcome stamps pid a k).attempt = a := rfl

/-- Every attempt a retry loop produces carries the loop's example name
and process id, a directory synthesized from its own components, and one
of the loop's date reads. -/
theorem rustLoopFrom_mem (name : String) (outcome : Nat → Bool)
    (stamps : Nat → String) (pid : Nat) :
    ∀ fuel a k, ∀ x ∈ (rustLoopFrom name outcome stamps pid fuel a k).attempts,
      x.exampleName = name ∧ x.pid = pid ∧
      x.dir = runDirName name x.dateStamp pid x.attempt ∧
      ∃ i, x.dateStamp = stamps i := by
  intro fuel
  induction fuel with
  | zero =>
    intro a k x hx
    have hx' : x = mkAttempt name outcome stamps pid a k := by
      by_cases h : outcome a = true <;>
        simpa [rustLoopFrom, mkAttempt_exitZero, h] using hx
    subst hx'
    exact ⟨rfl, rfl, rfl, ⟨k, rfl⟩⟩
  | succ fuel ih =>
    intro a k x hx
    by_cases h : outcome a = true
    · have hx' : x = mkAttempt name outcome stamps pid a k := by
        simpa [rustLoopFrom, mkAttempt_exitZero, h] using hx
      subst hx'
      exact ⟨rfl, rfl, rfl, ⟨k, rfl⟩⟩
    · have hx' : x = mkAttempt name outcome stamps pid a k ∨
          x ∈ (rustLoopFrom name outcome stamps pid fuel (a + 1)
            (k + 1)).attempts := by
        simpa [rustLoopFrom, mkAttempt_exitZero, h] using hx
      rcases hx' with hx' | hx'
      · subst hx'
        exact ⟨rfl, rfl, rfl, ⟨k, rfl⟩⟩
      · exact ih (a + 1) (k + 1) x hx'

/-- The attempt numbers of one retry loop are consecutive from the start
number. -/
theorem rustLoopFrom_attempt_range (name : String) (outcome : Nat → Bool)
    (stamps : Nat → String) (pid : Nat) :
    ∀ fuel a k,
      (rustLoopFrom name outcome stamps pid fuel a k).attempts.map
        (fun x => x.attempt) =
      List.range' a
        (rustLoopFrom name outcome stamps pid fuel a k).attempts.length := by
  intro fuel
  induction fuel with
  | zero =>
    intro a k
    by_cases h : outcome a = true <;>
      simp [rustLoopFrom, mkAttempt, h, List.range'_succ]
  | succ fuel ih =>
    intro a k
    by_cases h : outcome a = true
    · simp [rustLoopFrom, mkAttempt, h, List.range'_succ]
    · have hatt : (rustLoopFrom name outcome stamps pid (fuel + 1) a
          k).attempts =
          mkAttempt name outcome stamps pid a k ::
            (rustLoopFrom name outcome stamps pid fuel (a + 1)
              (k + 1)).attempts := by
        simp [rustLoopFrom, mkAttempt_exitZero, h]
      rw [hatt]
      simp only [List.map_cons, List.length_cons]
      rw [ih (a + 1) (k + 1), List.range'_succ]
      rfl

/-- Within one retry loop the attempt directories are pairwise distinct,
for date stamps of the fixed `%Y%m%d-%H%M%S` width. -/
theorem rustLoopFrom_pairwise (name : String) (outcome : Nat → Bool)
    (stamps : Nat → String) (pid : Nat)
    (hstamp : ∀ i, (stamps i).data.length = 15) :
    ∀ fuel a k, (rustLoopFrom name outcome stamps pid fuel a k).attempts.Pairwise
      (fun x y => x.dir ≠ y.dir) := by
  intro fuel a k
  have hrange := rustLoopFrom_attempt_range name outcome stamps pid fuel a k
  have hmem := rustLoopFrom_mem name outcome stamps pid fuel a k
  have hlt : (rustLoopFrom name outcome stamps pid fuel a k).attempts.Pairwise
      (fun x y => x.attempt < y.attempt) := by
    have hr := List.pairwise_lt_range' a
      (rustLoopFrom name outcome stamps pid fuel a k).attempts.length
    rw [← hrange] at hr
    exact (List.pairwise_map).mp hr
  refine List.Pairwise.imp_of_mem ?_ hlt
  intro x y hxmem hymem hxy heq
  obtain ⟨_, _, hdx, ⟨i, hsx⟩⟩ := hmem x hxmem
  obtain ⟨_, _, hdy, ⟨j, hsy⟩⟩ := hmem y hymem
  rw [hdx, hdy] at heq
  have hinj := runDirName_inj_same_name name _ _ _ _ _ _
    (by rw [hsx]; exact hstamp i) (by rw [hsy]; exact hstamp j) heq
  omega

/-- With every attempt failing, the retry loop spends its whole fuel:
fuel + 1 attempts, fuel sleeps, and the failure tag. -/
theorem rustLoopFrom_fail (name : String) (outcome : Nat → Bool)
    (stamps : Nat → String) (pid : Nat) (hfail : ∀ a, outcome a = false) :
    ∀ fuel a k,
      (rustLoopFrom name outcome stamps pid fuel a k).attempts.length =
        fuel + 1 ∧
      (rustLoopFrom name outcome stamps pid fuel a k).sleeps =
        List.replicate fuel 10 ∧
      (rustLoopFrom name outcome stamps pid fuel a k).failure =
        some ("rust:" ++ name) := by
  intro fuel
  induction fuel with
  | zero => intro a k; simp [rustLoopFrom, mkAttempt, hfail a]
  | succ fuel ih =>
    intro a k
    obtain ⟨h1, h2, h3⟩ := ih (a + 1) (k + 1)
    simp [rustLoopFrom, mkAttempt, hfail a, h1, h2, h3, List.replicate_succ]

/-- C3 counterexample: with the retry override set to `0`, the
run-then-check `while true` loop still performs attempt 1, creating one
run directory — not `retries = 0` directories — before recording the
FailureRecord. -/
theorem retry_budget_zero_runs_one_attempt :
    rustRetries (some "0") = 0 ∧
    (rustLoop (rustRetries (some "0")) "x" (fun _ => false)
      (fun _ => "20250101-000000") 7 0).attempts.length = 1 ∧
    (rustLoop (rustRetries (some "0")) "x" (fun _ => false)
      (fun _ => "20250101-000000") 7 0).failure = some "rust:x" := by
  refine ⟨by decide, by decide, by decide⟩

/-- C3 (amended): for a native example whose every attempt exits non-zero,
exactly `max retries 1` RunAttempt directories are created (the
run-then-check loop always performs attempt 1), each with a distinct name
given the fixed-width date stamps, a 10-second delay separates consecutive
attempts, and exactly one FailureRecord for that example is recorded
afterward. -/
theorem rust_all_fail_attempts (retries : Nat) (name : String)
    (outcome : Nat → Bool) (stamps : Nat → String) (pid k : Nat)
    (hfail : ∀ a, outcome a = false)
    (hstamp : ∀ i, (stamps i).data.length = 15) :
    (rustLoop retries name outcome stamps pid k).attempts.length =
      max retries 1 ∧
    ((rustLoop retries name outcome stamps pid k).attempts.map
      (fun x => x.dir)).Nodup ∧
    (rustLoop retries name outcome stamps pid k).sleeps =
      List.replicate (max retries 1 - 1) 10 ∧
    (rustLoop retries name outcome stamps pid k).failure =
      some ("rust:" ++ name) := by
  obtain ⟨h1, h2, h3⟩ :=
    rustLoopFrom_fail name outcome stamps pid hfail (retries - 1) 1 k
  refine ⟨?_, ?_, ?_, h3⟩
  · unfold rustLoop
    rw [h1]
    omega
  · exact nodup_map_of_pairwise_ne _ _
      (rustLoopFrom_pairwise name outcome stamps pid hstamp (retries - 1) 1 k)
  · unfold rustLoop
    rw [h2]
    congr 1
    omega

/-- C3 witness: a two-attempt budget with an always-failing example. -/
theorem rust_all_fail_attempts_witness :
    (rustLoop 2 "x" (fun _ => false) (fun _ => "20250101-000000") 7
      0).attempts.length = max 2 1 ∧
    ((rustLoop 2 "x" (fun _ => false) (fun _ => "20250101-000000") 7
      0).attempts.map (fun x => x.dir)).Nodup ∧
    (rustLoop 2 "x" (fun _ => false) (fun _ => "20250101-000000") 7
      0).sleeps = List.replicate (max 2 1 - 1) 10 ∧
    (rustLoop 2 "x" (fun _ => false) (fun _ => "20250101-000000") 7
      0).failure = some ("rust:" ++ "x") :=
  rust_all_fail_attempts 2 "x" (fun _ => false) (fun _ => "20250101-000000")
    7 0 (fun _ => rfl) (fun _ => rfl)

/-- Every attempt of the per-name loop carries a name from the Selection,
the run's process id, a directory synthesized from its own components,
and one of the run's date reads. -/
theorem rustNamesLoop_mem (retries : Nat) (outcome : String → Nat → Bool)
    (stamps : Nat → String) (pid : Nat) :
    ∀ sel k, ∀ x ∈ (rustNamesLoop retries outcome stamps pid sel k).1,
      x.exampleName ∈ sel ∧ x.pid = pid ∧
      x.dir = runDirName x.exampleName x.dateStamp pid x.attempt ∧
      ∃ i, x.dateStamp = stamps i := by
  intro sel
  induction sel with
  | nil => intro k x hx; simp [rustNamesLoop] at hx
  | cons n ns ih =>
    intro k x hx
    simp only [rustNamesLoop, List.mem_append] at hx
    rcases hx with hx | hx
    · obtain ⟨he, hp, hd, hs⟩ :=
        rustLoopFrom_mem n (outcome n) stamps pid (retries - 1) 1 k x hx
      refine ⟨?_, hp, ?_, hs⟩
      · rw [he]; exact List.mem_cons_self _ _
      · rw [he]; exact hd
    · obtain ⟨h1, h2, h3, h4⟩ := ih _ x hx
      exact ⟨List.mem_cons_of_mem _ h1, h2, h3, h4⟩

/-- Over a duplicate-free, dash-free Selection, all attempt directories of
one invocation are pairwise distinct. -/
theorem rustNamesLoop_pairwise (retries : Nat) (outcome : String → Nat → Bool)
    (stamps : Nat → String) (pid : Nat)
    (hstamp : ∀ i, (stamps i).data.length = 15) :
    ∀ sel k, sel.Nodup → (∀ n ∈ sel, ('-' : Char) ∉ n.data) →
      ((rustNamesLoop retries outcome stamps pid sel k).1).Pairwise
        (fun x y => x.dir ≠ y.dir) := by
  intro sel
  induction sel with
  | nil => intro k _ _; simp [rustNamesLoop]
  | cons n ns ih =>
    intro k hnodup hdash
    rw [List.nodup_cons] at hnodup
    simp only [rustNamesLoop]
    rw [List.pairwise_append]
    refine ⟨rustLoopFrom_pairwise n (outcome n) stamps pid hstamp
        (retries - 1) 1 k,
      ih _ hnodup.2 (fun m hm => hdash m (List.mem_cons_of_mem _ hm)), ?_⟩
    intro x hx y hy heq
    obtain ⟨hex, _, hdx, ⟨i, hsx⟩⟩ :=
      rustLoopFrom_mem n (outcome n) stamps pid (retries - 1) 1 k x hx
    obtain ⟨hey, _, hdy, ⟨j, hsy⟩⟩ :=
      rustNamesLoop_mem retries outcome stamps pid ns _ y hy
    rw [hdx, hdy] at heq
    have hinj := runDirName_inj n y.exampleName _ _ _ _ _ _
      (hdash n (List.mem_cons_self _ _))
      (hdash y.exampleName (List.mem_cons_of_mem _ hey))
      (by rw [hsx]; exact hstamp i) (by rw [hsy]; exact hstamp j) heq
    exact hnodup.1 (hinj.1 ▸ hey)

/-- C6 counterexample: a legal invocation that explicitly requests the
same catalog name twice, with both first attempts started within the same
clock second (the date stamp has 1-second resolution), produces two
attempts whose run directories are the same string — `mkdir -p` reuses the
directory. -/
theorem duplicate_request_reuses_dir :
    (runScript ⟨none, fun _ _ => true, true, fun _ => "20250101-000000", 7,
      .symlink⟩
      ["--rust=create_mint_consume_send,create_mint_consume_send"]).attempts.map
      (fun x => x.dir) =
      ["create_mint_consume_send-20250101-000000-7-attempt1",
       "create_mint_consume_send-20250101-000000-7-attempt1"] ∧
    ¬ ((runScript ⟨none, fun _ _ => true, true, fun _ => "20250101-000000", 7,
      .symlink⟩
      ["--rust=create_mint_consume_send,create_mint_consume_send"]).attempts.map
      (fun x => x.dir)).Nodup := by
  refine ⟨by decide, by decide⟩

/-- C6 (amended): the per-attempt directory name is synthesized from the
example name, a date stamp, the process id and the attempt number; for a
duplicate-free Selection of dash-free names and fixed-width date stamps
the directories of one invocation are pairwise distinct (never reused),
and two invocations with different process ids never share a directory —
while a duplicated explicit request of the same name can collide within
one clock second. -/
theorem distinct_attempt_dirs (retries retries' : Nat)
    (outcome outcome' : String → Nat → Bool) (stamps stamps' : Nat → String)
    (pid pid' k k' : Nat) (sel sel' : List String)
    (hstamp : ∀ i, (stamps i).data.length = 15)
    (hstamp' : ∀ i, (stamps' i).data.length = 15)
    (hnodup : sel.Nodup) (hdash : ∀ n ∈ sel, ('-' : Char) ∉ n.data)
    (hdash' : ∀ n ∈ sel', ('-' : Char) ∉ n.data)
    (hpid : pid ≠ pid') :
    (∀ x ∈ (rustNamesLoop retries outcome stamps pid sel k).1,
      x.dir = runDirName x.exampleName x.dateStamp x.pid x.attempt ∧
      x.pid = pid) ∧
    ((rustNamesLoop retries outcome stamps pid sel k).1.map
      (fun x => x.dir)).Nodup ∧
    (∀ x ∈ (rustNamesLoop retries outcome stamps pid sel k).1,
      ∀ y ∈ (rustNamesLoop retries' outcome' stamps' pid' sel' k').1,
        x.dir ≠ y.dir) := by
  refine ⟨?_, ?_, ?_⟩
  · intro x hx
    obtain ⟨_, hp, hd, _⟩ := rustNamesLoop_mem retries outcome stamps pid sel k x hx
    exact ⟨by rw [hp]; exact hd, hp⟩
  · exact nodup_map_of_pairwise_ne _ _
      (rustNamesLoop_pairwise retries outcome stamps pid hstamp sel k hnodup hdash)
  · intro x hx y hy heq
    obtain ⟨hex, _, hdx, ⟨i, hsx⟩⟩ :=
      rustNamesLoop_mem retries outcome stamps pid sel k x hx
    obtain ⟨hey, _, hdy, ⟨j, hsy⟩⟩ :=
      rustNamesLoop_mem retries' outcome' stamps' pid' sel' k' y hy
    rw [hdx, hdy] at heq
    have hinj := runDirName_inj x.exampleName y.exampleName _ _ _ _ _ _
      (hdash x.exampleName hex) (hdash' y.exampleName hey)
      (by rw [hsx]; exact hstamp i) (by rw [hsy]; exact hstamp' j) heq
    exact hpid hinj.2.2.1

/-- C6 witness: two one-example invocations with different process
ids. -/
theorem distinct_attempt_dirs_witness :
    (∀ x ∈ (rustNamesLoop 1 (fun _ _ => true) (fun _ => "20250101-000000") 0
        ["a"] 0).1,
      x.dir = runDirName x.exampleName x.dateStamp x.pid x.attempt ∧
      x.pid = 0) ∧
    ((rustNamesLoop 1 (fun _ _ => true) (fun _ => "20250101-000000") 0
      ["a"] 0).1.map (fun x => x.dir)).Nodup ∧
    (∀ x ∈ (rustNamesLoop 1 (fun _ _ => true) (fun _ => "20250101-000000") 0
        ["a"] 0).1,
      ∀ y ∈ (rustNamesLoop 1 (fun _ _ => true) (fun _ => "20250101-000000") 1
        ["a"] 0).1,
        x.dir ≠ y.dir) :=
  distinct_attempt_dirs 1 1 (fun _ _ => true) (fun _ _ => true)
    (fun _ => "20250101-000000") (fun _ => "20250101-000000") 0 1 0 0
    ["a"] ["a"] (fun _ => rfl) (fun _ => rfl) (by decide)
    (by decide) (by decide) (by decide)

/-- C5: for every browser Selection that validates (and every Selection
resolves to a non-empty name list), the external browser-test command is
invoked exactly once, with the names joined into a single alternation
pattern; the orchestrator applies no per-example retry — the retry
setting lives in the browser-test command's own configuration — and a
non-zero exit of the single invocation yields exactly one FailureRecord
tagged for the browser class as a whole. -/
theorem web_single_invocation (names : List String) (ez : Bool)
    (env : Option String)
    (hv : (validateLoop WEB_EXAMPLES WEB_SKIPPED
      (resolveNames names WEB_EXAMPLES WEB_SKIPPED)).2 = none) :
    resolveNames names WEB_EXAMPLES WEB_SKIPPED ≠ [] ∧
    (runWebPhase true names ez).invocations =
      [String.intercalate "|" (resolveNames names WEB_EXAMPLES WEB_SKIPPED)] ∧
    ((runWebPhase true names ez).failures = if ez then [] else ["web"]) ∧
    (Playwright.playwrightConfig env).retries =
      Playwright.tutorialRetries env := by
  cases hvv : validateLoop WEB_EXAMPLES WEB_SKIPPED
      (resolveNames names WEB_EXAMPLES WEB_SKIPPED) with
  | mk outs err =>
    have herr : err = none := by rw [hvv] at hv; exact hv
    subst herr
    refine ⟨?_, ?_, ?_, rfl⟩
    · by_cases hn : names.isEmpty = true
      · simp only [resolveNames, hn, if_true]
        decide
      · simp only [resolveNames, hn, Bool.false_eq_true, if_false]
        intro hcon
        rw [hcon] at hn
        exact hn rfl
    · simp [runWebPhase, hvv]
    · by_cases he : ez = true <;> simp [runWebPhase, hvv, he]

/-- C5 witness: the default browser Selection with a failing browser-test
exit. -/
theorem web_single_invocation_witness :
    resolveNames [] WEB_EXAMPLES WEB_SKIPPED ≠ [] ∧
    (runWebPhase true [] false).invocations =
      [String.intercalate "|" (resolveNames [] WEB_EXAMPLES WEB_SKIPPED)] ∧
    ((runWebPhase true [] false).failures = if false then [] else ["web"]) ∧
    (Playwright.playwrightConfig none).retries =
      Playwright.tutorialRetries none :=
  web_single_invocation [] false none (by decide)

/-- C2: for every invocation that reaches the aggregation phase (the
argument scan completed and neither block aborted), the exit status is
zero iff the collected FailureRecord list is empty; if it is non-empty,
the printed summary enumerates every recorded failure tag and the exit
status is non-zero. -/
theorem script_exit_iff_failures (inv : Invocation) (args : List String)
    (s : ScanState)
    (hscan : scanArgs args initScan = ScanResult.run s)
    (hweb : (runWebPhase (effectiveScan s).runWeb (effectiveScan s).webNames
      inv.webExitZero).abort = none)
    (hrust : (runRustPhase (effectiveScan s).runRust
      (effectiveScan s).rustNames (rustRetries inv.tutorialRetries)
      inv.rustOutcome inv.stamps inv.pid inv.masm 0).abort = none) :
    ((runScript inv args).exitCode = 0 ↔ (runScript inv args).failures = []) ∧
    ((runScript inv args).failures ≠ [] →
      (runScript inv args).exitCode ≠ 0 ∧
      ∀ f ∈ (runScript inv args).failures,
        "  " ++ f ∈ (runScript inv args).output) := by
  unfold runScript
  rw [hscan]
  simp only [hweb, hrust, Option.isSome_none, Bool.false_eq_true, if_false]
  set fs := (runWebPhase (effectiveScan s).runWeb (effectiveScan s).webNames
      inv.webExitZero).failures ++
    (runRustPhase (effectiveScan s).runRust (effectiveScan s).rustNames
      (rustRetries inv.tutorialRetries) inv.rustOutcome inv.stamps inv.pid
      inv.masm 0).failures with hfs
  by_cases hf : fs.isEmpty = true
  · have hni : fs = [] := List.isEmpty_iff.mp hf
    simp only [hf, if_true]
    simp [hni]
  · have hf' : fs.isEmpty = false := by
      revert hf; cases fs.isEmpty <;> simp
    have hne : fs ≠ [] := by
      intro hc; rw [hc] at hf'; simp at hf'
    simp only [hf', Bool.false_eq_true, if_false]
    refine ⟨⟨fun h => absurd h (by omega), fun h => absurd h hne⟩,
      fun _ => ⟨by omega, ?_⟩⟩
    intro f hfmem
    have hmem : "  " ++ f ∈ failureSummary fs := by
      unfold failureSummary
      exact List.mem_append_right _ (List.mem_map_of_mem _ hfmem)
    exact List.mem_append_right _ hmem

/-- C2 witness: an argument-free invocation with every example
succeeding reaches aggregation with no failures and exits 0. -/
theorem script_exit_iff_failures_witness :
    ((runScript ⟨none, fun _ _ => true, true, fun _ => "", 7, .symlink⟩
        []).exitCode = 0 ↔
      (runScript ⟨none, fun _ _ => true, true, fun _ => "", 7, .symlink⟩
        []).failures = []) ∧
    ((runScript ⟨none, fun _ _ => true, true, fun _ => "", 7, .symlink⟩
        []).failures ≠ [] →
      (runScript ⟨none, fun _ _ => true, true, fun _ => "", 7, .symlink⟩
        []).exitCode ≠ 0 ∧
      ∀ f ∈ (runScript ⟨none, fun _ _ => true, true, fun _ => "", 7,
        .symlink⟩ []).failures,
        "  " ++ f ∈ (runScript ⟨none, fun _ _ => true, true, fun _ => "", 7,
          .symlink⟩ []).output) :=
  script_exit_iff_failures
    ⟨none, fun _ _ => true, true, fun _ => "", 7, .symlink⟩ [] initScan
    rfl (by decide) (by decide)

/-- The helper `updateTutorialStatus` leaves the React flag untouched. -/
theorem updateTutorialStatus_isRunning (n : String) (st : TutorialState)
    (e : Option JsValue) (s : PageState) :
    (updateTutorialStatus n st e s).isRunning = s.isRunning := by
  unfold updateTutorialStatus
  by_cases h : s.hasWindow = true <;> simp [h]

/-- The helper `updateTutorialStatus` leaves the window presence untouched. -/
theorem updateTutorialStatus_hasWindow (n : String) (st : TutorialState)
    (e : Option JsValue) (s : PageState) :
    (updateTutorialStatus n st e s).hasWindow = s.hasWindow := by
  unfold updateTutorialStatus
  by_cases h : s.hasWindow = true <;> simp [h]

/-- The helper `updateTutorialStatus` leaves the console log untouched. -/
theorem updateTutorialStatus_consoleErrors (n : String) (st : TutorialState)
    (e : Option JsValue) (s : PageState) :
    (updateTutorialStatus n st e s).consoleErrors = s.consoleErrors := by
  unfold updateTutorialStatus
  by_cases h : s.hasWindow = true <;> simp [h]

/-- With a window present, `updateTutorialStatus` stores exactly the given
state and the formatted error under the given name. -/
theorem lookupStatus_update_self (n : String) (st : TutorialState)
    (e : Option JsValue) (s : PageState) (h : s.hasWindow = true) :
    lookupStatus (updateTutorialStatus n st e s) n =
      some ⟨st, formatTutorialError e⟩ := by
  unfold updateTutorialStatus lookupStatus
  simp [h]

/-- C8: `runTutorial` never rejects — a rejection of the action is caught,
logged to the console, and recorded in the status map as state `failed`
with the formatted error message; and whatever the outcome, the
`isRunning` flag is reset to false afterward. -/
theorem runTutorial_never_rejects (name : String)
    (outcome : Except JsValue Unit) (s : PageState) :
    (runTutorial name outcome s).isRunning = false ∧
    ∀ e, outcome = .error e → s.hasWindow = true →
      lookupStatus (runTutorial name outcome s) name =
        some ⟨.failed, formatTutorialError (some e)⟩ ∧
      ("[tutorial:" ++ name ++ "]", e) ∈
        (runTutorial name outcome s).consoleErrors := by
  obtain ⟨shw, sts, sir, sce⟩ := s
  cases outcome with
  | ok u =>
    refine ⟨?_, ?_⟩
    · simp [runTutorial, runTutorialEvents, applyPageEvent,
        updateTutorialStatus_isRunning]
    · intro e he; cases he
  | error e' =>
    refine ⟨?_, ?_⟩
    · simp [runTutorial, runTutorialEvents, applyPageEvent,
        updateTutorialStatus_isRunning]
    · intro e he hw
      cases he
      simp only at hw
      subst hw
      refine ⟨?_, ?_⟩
      · simp [runTutorial, runTutorialEvents, applyPageEvent,
          updateTutorialStatus, lookupStatus]
      · simp [runTutorial, runTutorialEvents, applyPageEvent,
          updateTutorialStatus, lookupStatus]

/-- C8 witness: a concrete rejection is caught, logged and recorded, and
the flag ends false. -/
theorem runTutorial_never_rejects_witness :
    (runTutorial "a" (Except.error (JsValue.other true "boom"))
      ⟨true, none, false, []⟩).isRunning = false ∧
    lookupStatus
      (runTutorial "a" (Except.error (JsValue.other true "boom"))
        ⟨true, none, false, []⟩) "a" =
      some ⟨TutorialState.failed,
        formatTutorialError (some (JsValue.other true "boom"))⟩ ∧
    ("[tutorial:" ++ "a" ++ "]", JsValue.other true "boom") ∈
      (runTutorial "a" (Except.error (JsValue.other true "boom"))
        ⟨true, none, false, []⟩).consoleErrors := by
  have h := runTutorial_never_rejects "a"
    (Except.error (JsValue.other true "boom")) ⟨true, none, false, []⟩
  exact ⟨h.1, (h.2 _ rfl rfl).1, (h.2 _ rfl rfl).2⟩

/-- C10: `runTutorial` writes the `running` status for the tutorial before
invoking the action; once it resolves, the entry is `passed` or `failed`,
and it is `passed` only if the action's promise fulfilled. -/
theorem runTutorial_status_lifecycle (name : String)
    (outcome : Except JsValue Unit) (s : PageState)
    (hw : s.hasWindow = true) :
    (runTutorialEvents name outcome).take 3 =
      [.setRunningFlag true, .setStatus name .running none, .invokeAction] ∧
    lookupStatus
      (((runTutorialEvents name outcome).take 2).foldl applyPageEvent s)
      name = some ⟨.running, none⟩ ∧
    (lookupStatus (runTutorial name outcome s) name =
        some ⟨.passed, formatTutorialError none⟩ ∨
      ∃ msg, lookupStatus (runTutorial name outcome s) name =
        some ⟨.failed, msg⟩) ∧
    ((lookupStatus (runTutorial name outcome s) name).map
        (fun st => st.state) = some .passed → outcome = Except.ok ()) := by
  obtain ⟨shw, sts, sir, sce⟩ := s
  simp only at hw
  subst hw
  have hpre : lookupStatus
      (((runTutorialEvents name outcome).take 2).foldl applyPageEvent
        ⟨true, sts, sir, sce⟩) name = some ⟨.running, none⟩ := by
    cases outcome <;>
      simp [runTutorialEvents, applyPageEvent, updateTutorialStatus,
        lookupStatus, formatTutorialError]
  cases outcome with
  | ok u =>
    have hfin : lookupStatus
        (runTutorial name (Except.ok u) ⟨true, sts, sir, sce⟩) name =
        some ⟨.passed, formatTutorialError none⟩ := by
      simp [runTutorial, runTutorialEvents, applyPageEvent,
        updateTutorialStatus, lookupStatus]
    exact ⟨rfl, hpre, Or.inl hfin, fun _ => rfl⟩
  | error e =>
    have hfin : lookupStatus
        (runTutorial name (Except.error e) ⟨true, sts, sir, sce⟩) name =
        some ⟨.failed, formatTutorialError (some e)⟩ := by
      simp [runTutorial, runTutorialEvents, applyPageEvent,
        updateTutorialStatus, lookupStatus]
    refine ⟨rfl, hpre, Or.inr ⟨formatTutorialError (some e), hfin⟩, ?_⟩
    intro hcontra
    rw [hfin] at hcontra
    simp at hcontra

/-- C10 witness: one fulfilled run on a concrete page state. -/
theorem runTutorial_status_lifecycle_witness :
    (runTutorialEvents "a" (Except.ok ())).take 3 =
      [.setRunningFlag true, .setStatus "a" .running none, .invokeAction] ∧
    lookupStatus
      (((runTutorialEvents "a" (Except.ok ())).take 2).foldl applyPageEvent
        ⟨true, none, false, []⟩) "a" = some ⟨.running, none⟩ ∧
    (lookupStatus (runTutorial "a" (Except.ok ()) ⟨true, none, false, []⟩)
        "a" = some ⟨.passed, formatTutorialError none⟩ ∨
      ∃ msg, lookupStatus
        (runTutorial "a" (Except.ok ()) ⟨true, none, false, []⟩) "a" =
        some ⟨.failed, msg⟩) ∧
    ((lookupStatus (runTutorial "a" (Except.ok ()) ⟨true, none, false, []⟩)
        "a").map (fun st => st.state) = some .passed →
      Except.ok () = (Except.ok () : Except JsValue Unit)) :=
  runTutorial_status_lifecycle "a" (Except.ok ()) ⟨true, none, false, []⟩ rfl

/-- C9: `updateTutorialStatus` writes only the entry of the given tutorial
name: every other name's entry — and the rest of the page state — is left
unchanged. -/
theorem updateTutorialStatus_frame (name k : String) (st : TutorialState)
    (err : Option JsValue) (s : PageState) (hk : k ≠ name) :
    lookupStatus (updateTutorialStatus name st err s) k = lookupStatus s k ∧
    (updateTutorialStatus name st err s).isRunning = s.isRunning ∧
    (updateTutorialStatus name st err s).consoleErrors = s.consoleErrors ∧
    (updateTutorialStatus name st err s).hasWindow = s.hasWindow := by
  unfold updateTutorialStatus lookupStatus
  by_cases hw : s.hasWindow = true <;> simp [hw, hk]

/-- C9 witness: writing `a` leaves the entry of `b` unchanged on a
concrete page state. -/
theorem updateTutorialStatus_frame_witness :
    lookupStatus
      (updateTutorialStatus "a" TutorialState.running none ⟨true, none, false, []⟩)
        "b" =
      lookupStatus ⟨true, none, false, []⟩ "b" ∧
    (updateTutorialStatus "a" TutorialState.running none
      ⟨true, none, false, []⟩).isRunning = false ∧
    (updateTutorialStatus "a" TutorialState.running none
      ⟨true, none, false, []⟩).consoleErrors = [] ∧
    (updateTutorialStatus "a" TutorialState.running none
      ⟨true, none, false, []⟩).hasWindow = true :=
  updateTutorialStatus_frame "a" "b" TutorialState.running none
    ⟨true, none, false, []⟩ (by decide)

end Theorems
